import Mathlib

/-!
Verification of the lifeline bouncer (`lifelife-bouncer.py`), a
reconnect-tolerant relay between a client and an upstream MUD server.

The definitions below are a shallow embedding of the source, translated
function by function: bytes are natural numbers, byte strings are lists of
naturals, the frame codec and the per-session operations are pure functions,
and the registry (the global `sessions` dict) is an association list.  JSON
parsing (`json.loads`) is modelled by parameters mapping payload bytes to the
parsed message shape the code inspects; `json.dumps` of the concrete messages
the code emits is modelled byte-for-byte.  Wall-clock time (`last_active`) and
the asyncio task machinery are not modelled; no property below concerns the
idle reaper's timing.
-/

def TYPE_DATA : Nat := 0

def TYPE_CTRL : Nat := 1

def BUFFER_LIMIT : Nat := 65536

/-- `pack_frame`: `struct.pack("!BH", frame_type, len(payload)) + payload`,
a 1-byte kind, a 2-byte big-endian length, then the payload. -/
def pack_frame (frame_type : Nat) (payload : List Nat) : List Nat :=
  frame_type :: (payload.length / 256) :: (payload.length % 256) :: payload

/-- The big-endian length field of the frame at the head of `data`
(`struct.unpack("!BH", data[:3])`). -/
def hdr_len (data : List Nat) : Nat := data.getD 1 0 * 256 + data.getD 2 0

/-- The `while` loop of `unpack_frames`.  The fuel argument only bounds the
number of iterations: each iteration consumes at least three bytes, so
`data.length` iterations always suffice (see `unpack_go_fuel`). -/
def unpack_go : Nat → List Nat → List (Nat × List Nat) × List Nat
  | 0, data => ([], data)
  | fuel + 1, data =>
    if 3 ≤ data.length ∧ 3 + hdr_len data ≤ data.length then
      ((data.getD 0 0, (data.drop 3).take (hdr_len data)) ::
          (unpack_go fuel (data.drop (3 + hdr_len data))).1,
        (unpack_go fuel (data.drop (3 + hdr_len data))).2)
    else ([], data)

/-- `unpack_frames`: repeatedly extract complete frames from the front of
`data`; returns the decoded frames and the remaining (undecoded) bytes.
The source mutates `data` in place; here the remainder is returned. -/
def unpack_frames (data : List Nat) : List (Nat × List Nat) × List Nat :=
  unpack_go data.length data

lemma unpack_go_neg (fuel : Nat) (data : List Nat)
    (h : ¬(3 ≤ data.length ∧ 3 + hdr_len data ≤ data.length)) :
    unpack_go fuel data = ([], data) := by
  cases fuel with
  | zero => rfl
  | succ fuel => simp only [unpack_go, if_neg h]

lemma unpack_go_fuel : ∀ (f1 f2 : Nat) (data : List Nat),
    data.length ≤ f1 → data.length ≤ f2 →
    unpack_go f1 data = unpack_go f2 data := by
  intro f1
  induction f1 with
  | zero =>
    intro f2 data h1 _
    have hd : data = [] := List.eq_nil_of_length_eq_zero (Nat.le_zero.mp h1)
    subst hd
    rw [unpack_go_neg 0 [] (by simp), unpack_go_neg f2 [] (by simp)]
  | succ f1 ih =>
    intro f2 data h1 h2
    by_cases h : 3 ≤ data.length ∧ 3 + hdr_len data ≤ data.length
    · cases f2 with
      | zero => omega
      | succ f2 =>
        have hrec := ih f2 (data.drop (3 + hdr_len data))
          (by simp only [List.length_drop]; omega)
          (by simp only [List.length_drop]; omega)
        simp only [unpack_go, if_pos h, hrec]
    · rw [unpack_go_neg _ _ h, unpack_go_neg _ _ h]

/-- Unfolding equation of `unpack_frames` when a complete frame is present. -/
lemma unpack_frames_pos (data : List Nat)
    (h : 3 ≤ data.length ∧ 3 + hdr_len data ≤ data.length) :
    unpack_frames data =
      ((data.getD 0 0, (data.drop 3).take (hdr_len data)) ::
          (unpack_frames (data.drop (3 + hdr_len data))).1,
        (unpack_frames (data.drop (3 + hdr_len data))).2) := by
  obtain ⟨n, hn⟩ : ∃ n, data.length = n + 1 := ⟨data.length - 1, by omega⟩
  unfold unpack_frames
  rw [hn]
  have h' : 3 ≤ data.length ∧ 3 + hdr_len data ≤ data.length := h
  simp only [unpack_go, if_pos h']
  rw [unpack_go_fuel n (data.drop (3 + hdr_len data)).length
    (data.drop (3 + hdr_len data)) (by simp only [List.length_drop]; omega) le_rfl]

/-- Unfolding equation of `unpack_frames` when no complete frame is present. -/
lemma unpack_frames_neg (data : List Nat)
    (h : ¬(3 ≤ data.length ∧ 3 + hdr_len data ≤ data.length)) :
    unpack_frames data = ([], data) :=
  unpack_go_neg data.length data h

lemma unpack_frames_nil : unpack_frames [] = ([], []) :=
  unpack_frames_neg [] (by simp)

/-- Decoding a well-formed frame at the front of the stream peels it off and
continues with the remaining bytes. -/
lemma unpack_pack_prefix (t : Nat) (p rest : List Nat) :
    unpack_frames (pack_frame t p ++ rest) =
      ((t, p) :: (unpack_frames rest).1, (unpack_frames rest).2) := by
  have hdata : pack_frame t p ++ rest =
      t :: p.length / 256 :: p.length % 256 :: (p ++ rest) := by
    simp [pack_frame]
  have hhdr : hdr_len (t :: p.length / 256 :: p.length % 256 :: (p ++ rest)) =
      p.length := by
    simp only [hdr_len, List.getD_cons_succ, List.getD_cons_zero]
    omega
  have hcond : 3 ≤ (t :: p.length / 256 :: p.length % 256 :: (p ++ rest)).length ∧
      3 + hdr_len (t :: p.length / 256 :: p.length % 256 :: (p ++ rest)) ≤
        (t :: p.length / 256 :: p.length % 256 :: (p ++ rest)).length := by
    constructor
    · simp
    · rw [hhdr]
      simp only [List.length_cons, List.length_append]
      omega
  rw [hdata, unpack_frames_pos _ hcond, hhdr]
  have hdrop3 : (t :: p.length / 256 :: p.length % 256 :: (p ++ rest)).drop 3 =
      p ++ rest := rfl
  have hdropall : (t :: p.length / 256 :: p.length % 256 :: (p ++ rest)).drop
      (3 + p.length) = rest := by
    have h3 : 3 + p.length = p.length + 3 := by omega
    rw [h3]
    show (p ++ rest).drop p.length = rest
    exact List.drop_left p rest
  rw [hdrop3, hdropall, List.getD_cons_zero, List.take_left]

/-- C8: for a frame kind in `{Data, Control}` and a payload of at most 65535
bytes, decoding the encoding of `(kind, payload)` yields exactly the single
frame `(kind, payload)` with empty remainder. -/
theorem c8_round_trip (t : Nat) (p : List Nat)
    (ht : t = TYPE_DATA ∨ t = TYPE_CTRL) (hlen : p.length ≤ 65535)
    (hbytes : ∀ b ∈ p, b < 256) :
    unpack_frames (pack_frame t p) = ([(t, p)], []) := by
  have h := unpack_pack_prefix t p []
  rw [List.append_nil] at h
  rw [h, unpack_frames_nil]

/-- C8 witness: the round trip at the concrete frame `(Control, [104, 105])`. -/
theorem c8_round_trip_witness :
    unpack_frames (pack_frame TYPE_CTRL [104, 105]) =
      ([(TYPE_CTRL, [104, 105])], []) :=
  c8_round_trip TYPE_CTRL [104, 105] (Or.inr rfl) (by decide) (by decide)

/-- The encoded bytes of a list of frames, concatenated. -/
def encode_all (fs : List (Nat × List Nat)) : List Nat :=
  (fs.map (fun f => pack_frame f.1 f.2)).flatten

lemma unpack_encode_all : ∀ fs : List (Nat × List Nat),
    unpack_frames (encode_all fs) = (fs, []) := by
  intro fs
  induction fs with
  | nil =>
    rw [show encode_all [] = [] from rfl]
    exact unpack_frames_nil
  | cons f fs ih =>
    have h : encode_all (f :: fs) = pack_frame f.1 f.2 ++ encode_all fs := by
      simp [encode_all]
    rw [h, unpack_pack_prefix, ih]

lemma hdr_len_append (x y : List Nat) (h : 3 ≤ x.length) :
    hdr_len (x ++ y) = hdr_len x := by
  match x, h with
  | a :: b :: c :: xs, _ => rfl

lemma drop_three_cons (a b c : Nat) (l : List Nat) (n : Nat) :
    (a :: b :: c :: l).drop (3 + n) = l.drop n := by
  have h3 : 3 + n = n + 1 + 1 + 1 := by omega
  rw [h3, List.drop_succ_cons, List.drop_succ_cons, List.drop_succ_cons]

/-- Incrementality of the decoder: decoding `x ++ y` is the same as decoding
`x`, keeping its remainder, and decoding the remainder followed by `y`. -/
lemma unpack_frames_append_aux : ∀ (n : Nat) (x : List Nat), x.length ≤ n →
    ∀ y : List Nat,
    unpack_frames (x ++ y) =
      ((unpack_frames x).1 ++ (unpack_frames ((unpack_frames x).2 ++ y)).1,
        (unpack_frames ((unpack_frames x).2 ++ y)).2) := by
  intro n
  induction n with
  | zero =>
    intro x hx y
    have hd : x = [] := List.eq_nil_of_length_eq_zero (Nat.le_zero.mp hx)
    subst hd
    rw [unpack_frames_nil]
    simp
  | succ n ih =>
    intro x hx y
    by_cases h : 3 ≤ x.length ∧ 3 + hdr_len x ≤ x.length
    · rcases x with _ | ⟨a, _ | ⟨b, _ | ⟨c, xs⟩⟩⟩
      · exact absurd h.1 (by simp)
      · exact absurd h.1 (by simp)
      · exact absurd h.1 (by simp)
      · have hL : hdr_len (a :: b :: c :: xs) = b * 256 + c := rfl
        have hxs : hdr_len (a :: b :: c :: xs) ≤ xs.length := by
          have := h.2
          simp only [List.length_cons] at this
          omega
        have hcons : (a :: b :: c :: xs) ++ y = a :: b :: c :: (xs ++ y) := rfl
        have hxy : 3 ≤ (a :: b :: c :: (xs ++ y)).length ∧
            3 + hdr_len (a :: b :: c :: (xs ++ y)) ≤
              (a :: b :: c :: (xs ++ y)).length := by
          constructor
          · simp
          · show 3 + (b * 256 + c) ≤ (a :: b :: c :: (xs ++ y)).length
            simp only [List.length_cons, List.length_append]
            omega
        have hL2 : hdr_len (a :: b :: c :: (xs ++ y)) = b * 256 + c := rfl
        have hval : b * 256 + c ≤ xs.length := by omega
        rw [hcons, unpack_frames_pos _ hxy, unpack_frames_pos _ h]
        have e2 : ((a :: b :: c :: (xs ++ y)).drop 3).take
              (hdr_len (a :: b :: c :: (xs ++ y))) =
            ((a :: b :: c :: xs).drop 3).take (hdr_len (a :: b :: c :: xs)) := by
          rw [hL, hL2]
          show (xs ++ y).take (b * 256 + c) = xs.take (b * 256 + c)
          rw [List.take_append_eq_append_take,
            Nat.sub_eq_zero_of_le hval, List.take_zero, List.append_nil]
        have e3 : (a :: b :: c :: (xs ++ y)).drop
              (3 + hdr_len (a :: b :: c :: (xs ++ y))) =
            (a :: b :: c :: xs).drop (3 + hdr_len (a :: b :: c :: xs)) ++ y := by
          rw [hL, hL2, drop_three_cons, drop_three_cons,
            List.drop_append_eq_append_drop,
            Nat.sub_eq_zero_of_le hval, List.drop_zero]
        have ihd := ih ((a :: b :: c :: xs).drop (3 + hdr_len (a :: b :: c :: xs)))
          (by simp only [List.length_drop, List.length_cons] at hx ⊢; omega) y
        rw [e2, e3, ihd]
        simp
    · rw [unpack_frames_neg x h]
      simp
lemma unpack_frames_append (x y : List Nat) :
    unpack_frames (x ++ y) =
      ((unpack_frames x).1 ++ (unpack_frames ((unpack_frames x).2 ++ y)).1,
        (unpack_frames ((unpack_frames x).2 ++ y)).2) :=
  unpack_frames_append_aux x.length x le_rfl y

lemma unpack_remainder_stuck_aux : ∀ (n : Nat) (d : List Nat), d.length ≤ n →
    unpack_frames (unpack_frames d).2 = ([], (unpack_frames d).2) := by
  intro n
  induction n with
  | zero =>
    intro d hd
    have h : d = [] := List.eq_nil_of_length_eq_zero (Nat.le_zero.mp hd)
    subst h
    rw [unpack_frames_nil]
    exact unpack_frames_nil
  | succ n ih =>
    intro d hd
    by_cases h : 3 ≤ d.length ∧ 3 + hdr_len d ≤ d.length
    · rw [unpack_frames_pos d h]
      exact ih (d.drop (3 + hdr_len d)) (by simp only [List.length_drop]; omega)
    · rw [unpack_frames_neg d h]
      exact unpack_frames_neg d h

/-- The remainder returned by the decoder never holds a complete frame:
decoding it again yields no frames and the same remainder. -/
lemma unpack_remainder_stuck (d : List Nat) :
    unpack_frames (unpack_frames d).2 = ([], (unpack_frames d).2) :=
  unpack_remainder_stuck_aux d.length d le_rfl

/-- One incremental step of the caller pattern of `unpack_frames` (as in
`Session._read_client`): extend the carried buffer with the newly read chunk,
decode, accumulate the decoded frames, and carry the remainder. -/
def feed_step (st : List (Nat × List Nat) × List Nat) (c : List Nat) :
    List (Nat × List Nat) × List Nat :=
  (st.1 ++ (unpack_frames (st.2 ++ c)).1, (unpack_frames (st.2 ++ c)).2)

/-- Feeding a sequence of read chunks through the decoder incrementally,
starting from an empty buffer. -/
def feed_chunks (cs : List (List Nat)) : List (Nat × List Nat) × List Nat :=
  cs.foldl feed_step ([], [])

lemma feed_chunks_go : ∀ (cs : List (List Nat)) (acc : List (Nat × List Nat))
    (buf : List Nat), unpack_frames buf = ([], buf) →
    cs.foldl feed_step (acc, buf) =
      (acc ++ (unpack_frames (buf ++ cs.flatten)).1,
        (unpack_frames (buf ++ cs.flatten)).2) := by
  intro cs
  induction cs with
  | nil =>
    intro acc buf hbuf
    simp [hbuf]
  | cons c cs ih =>
    intro c0 buf hbuf
    have hstep : List.foldl feed_step (c0, buf) (c :: cs) =
        List.foldl feed_step
          (c0 ++ (unpack_frames (buf ++ c)).1, (unpack_frames (buf ++ c)).2)
          cs := rfl
    rw [hstep, ih _ _ (unpack_remainder_stuck (buf ++ c))]
    have hj : buf ++ (c :: cs).flatten = (buf ++ c) ++ cs.flatten := by
      simp
    rw [hj, unpack_frames_append (buf ++ c) cs.flatten]
    simp

/-- C9: feeding the concatenated encoding of any list of valid frames to the
decoder in arbitrary chunk splits, carrying the remainder between calls,
yields exactly those frames in order with empty final remainder; and in
general incremental decoding of any byte sequence agrees with decoding it
whole, so a trailing partial frame is returned in the remainder, never
discarded. -/
theorem c9_incremental_decode :
    (∀ cs : List (List Nat), feed_chunks cs = unpack_frames cs.flatten) ∧
    (∀ (fs : List (Nat × List Nat)) (cs : List (List Nat)),
      (∀ f ∈ fs, f.2.length ≤ 65535) → cs.flatten = encode_all fs →
      feed_chunks cs = (fs, [])) := by
  have h1 : ∀ cs : List (List Nat), feed_chunks cs = unpack_frames cs.flatten := by
    intro cs
    have h := feed_chunks_go cs [] [] unpack_frames_nil
    simpa [feed_chunks] using h
  refine ⟨h1, ?_⟩
  intro fs cs _ hs
  rw [h1 cs, hs, unpack_encode_all]

/-- C9 witness: the encoding of the single frame `(Control, [9, 8])` split
into the chunks `[1, 0]`, `[2, 9]`, `[8]` decodes incrementally to exactly
that frame with empty remainder. -/
theorem c9_incremental_decode_witness :
    (∀ f ∈ [(TYPE_CTRL, [9, 8])], f.2.length ≤ 65535) ∧
    ([[1, 0], [2, 9], [8]] : List (List Nat)).flatten =
      encode_all [(TYPE_CTRL, [9, 8])] ∧
    feed_chunks [[1, 0], [2, 9], [8]] = ([(TYPE_CTRL, [9, 8])], []) :=
  ⟨by decide, by decide,
    c9_incremental_decode.2 [(TYPE_CTRL, [9, 8])] [[1, 0], [2, 9], [8]]
      (by decide) (by decide)⟩

/-- The mutable per-session state of `class Session`.  Connections are
modelled by the facts the code branches on: whether a client writer is
attached and whether the upstream reader/writer exist.  `last_active`
(wall-clock time) and the asyncio task handles are not modelled. -/
structure Session where
  session_id : String
  buffer : List (List Nat)
  ack_offset : Int
  total_bytes : Nat
  client_writer : Bool
  mud_reader : Bool
  mud_writer : Bool
deriving DecidableEq

/-- `Session.__init__`. -/
def Session.init (session_id : String) : Session :=
  { session_id := session_id, buffer := [], ack_offset := 0, total_bytes := 0,
    client_writer := false, mud_reader := false, mud_writer := false }

/-- `sum(len(chunk) for chunk in buffer)`. -/
def sumLens (buf : List (List Nat)) : Nat := (buf.map List.length).sum

/-- `total_bytes - sum(len(c) for c in buffer)`: the stream offset of the
first retained byte.  Computed in `Int` as Python subtraction is exact. -/
def window_start (s : Session) : Int :=
  (s.total_bytes : Int) - (sumLens s.buffer : Int)

/-- The eviction loop of `_append_buffer`:
`while sum(len(chunk) for chunk in buffer) > BUFFER_LIMIT: buffer.popleft()`. -/
def evict : List (List Nat) → List (List Nat)
  | [] => []
  | c :: rest =>
    if BUFFER_LIMIT < sumLens (c :: rest) then evict rest else c :: rest

/-- `Session._append_buffer`. -/
def append_buffer (s : Session) (data : List Nat) : Session :=
  { s with total_bytes := s.total_bytes + data.length,
           buffer := evict (s.buffer ++ [data]) }

/-- The loop of `Session._trim_buffer`: starting from `current_offset`, drop
leading chunks whose end does not exceed `ack_offset`. -/
def trim_go (current ack : Int) : List (List Nat) → List (List Nat)
  | [] => []
  | c :: rest =>
    if current + (c.length : Int) ≤ ack then
      trim_go (current + (c.length : Int)) ack rest
    else c :: rest

/-- `Session._trim_buffer`. -/
def trim_buffer (s : Session) : Session :=
  { s with buffer := trim_go (window_start s) s.ack_offset s.buffer }

/-- The parse of a control payload in `Session._handle_control`:
`json.loads` fails (`malformed`), or succeeds on an object that either
carries an `"ack"` value or does not. -/
inductive CtrlMsg where
  | malformed : CtrlMsg
  | parsed : Option Int → CtrlMsg
deriving DecidableEq

/-- `Session._handle_control` (ignoring `last_active`): a malformed payload
is ignored; a message with an `"ack"` key assigns `ack_offset` and trims. -/
def handle_control (s : Session) (msg : CtrlMsg) : Session :=
  match msg with
  | .malformed => s
  | .parsed none => s
  | .parsed (some a) => trim_buffer { s with ack_offset := a }

/-- C1 (code behaviour at the failing input): the code assigns
`self.ack_offset = msg["ack"]` unconditionally, so applying acks 50 then 30
leaves `ack_offset = 30`, not `max` = 50 — acknowledgements are not kept
monotone, contradicting the claim. -/
theorem c1_ack_assignment :
    (handle_control (handle_control (Session.init "s") (CtrlMsg.parsed (some 50)))
        (CtrlMsg.parsed (some 30))).ack_offset = 30 := by
  decide

/-- The session state of the C3 scenario: three appended chunks of 10 bytes
each, holding the stream bytes `0..29`, then the control ack 15. -/
def c3_session : Session :=
  handle_control
    (append_buffer
      (append_buffer
        (append_buffer (Session.init "s") (List.range' 0 10))
        (List.range' 10 10))
      (List.range' 20 10))
    (CtrlMsg.parsed (some 15))

/-- C3 counterexample: after appending chunks of lengths 10, 10, 10
(totalBytes = 30) and acking 15, the retained buffer does NOT represent
bytes `[15, 30)` of the stream — trimming drops only whole chunks. -/
theorem c3_counterexample :
    c3_session.buffer.flatten ≠ (List.range' 0 30).drop 15 := by
  decide

/-- C3 amended: in that scenario the retained buffer represents exactly
bytes `[10, 30)` of the stream — the trim drops only the leading chunks
fully covered by the acknowledgement, so the window starts at the chunk
boundary at or below `ackOffset`. -/
theorem c3_trim_amended :
    c3_session.total_bytes = 30 ∧ window_start c3_session = 10 ∧
    c3_session.buffer.flatten = (List.range' 0 30).drop 10 := by
  decide


/-- The bytes of a Lean string (all message payloads are ASCII). -/
def strBytes (s : String) : List Nat := s.toList.map Char.toNat

/-- `json.dumps({"error": reason}).encode()`. -/
def json_error (reason : String) : List Nat :=
  strBytes ("\x7b\"error\": \"" ++ reason ++ "\"\x7d")

/-- `json.dumps({"session": sid}).encode()`. -/
def json_session (sid : String) : List Nat :=
  strBytes ("\x7b\"session\": \"" ++ sid ++ "\"\x7d")

/-- The literal `b'{"error":"Missing control frame"}'` of `handle_client`. -/
def missing_control_bytes : List Nat :=
  strBytes "\x7b\"error\":\"Missing control frame\"\x7d"

/-- The literal `b'{"error":"Invalid session"}'` of `handle_client`. -/
def invalid_session_bytes : List Nat :=
  strBytes "\x7b\"error\":\"Invalid session\"\x7d"

/-- Python's `chunk[skip:]` for an `int` index: a negative start counts from
the end of the list, clamped at 0 (`Int.toNat` clamps negatives). -/
def pySliceFrom (chunk : List Nat) (skip : Int) : List Nat :=
  if 0 ≤ skip then chunk.drop skip.toNat
  else chunk.drop ((chunk.length : Int) + skip).toNat

/-- The replay loop of `attach_client`: skip whole chunks while
`skip >= len(chunk)`, then send `chunk[skip:]` and continue with `skip = 0`. -/
def replay_loop : List (List Nat) → Int → List (List Nat)
  | [], _ => []
  | c :: rest, skip =>
    if (c.length : Int) ≤ skip then replay_loop rest (skip - (c.length : Int))
    else pySliceFrom c skip :: replay_loop rest 0

/-- The chunks replayed by `attach_client`: with a resume offset below
`total_bytes` the buffer is replayed from `skip = offset − windowStart`
(which the code never checks for being negative); with no offset the whole
retained buffer is replayed; otherwise nothing. -/
def attach_replay (s : Session) (resume_offset : Option Int) : List (List Nat) :=
  match resume_offset with
  | some off =>
    if off < (s.total_bytes : Int) then replay_loop s.buffer (off - window_start s)
    else []
  | none => s.buffer

/-- Result of an operation on one client connection: the updated session
object, the frames written to that client, and whether the code called
`close()` on the client connection. -/
structure AttachResult where
  session : Session
  sent : List (Nat × List Nat)
  client_closed : Bool
deriving DecidableEq

/-- `Session._handle_mud_disconnect(error)`: if a client writer is attached,
send it `{"error": error}` and close it (the reference is not cleared);
then close and clear the upstream writer if present. -/
def handle_mud_disconnect (s : Session) (error : String) : AttachResult :=
  { session := if s.mud_writer then { s with mud_writer := false } else s,
    sent := if s.client_writer then [(TYPE_CTRL, json_error error)] else [],
    client_closed := s.client_writer }

/-- `Session.attach_client`: store the client writer; if the upstream
connection is missing, run the disconnect handler with "Connection refused"
(no relay loop starts); otherwise send the session token and the replayed
chunks as Data frames (the relay loop then starts). -/
def attach_client (s : Session) (resume_offset : Option Int) : AttachResult :=
  let s1 := { s with client_writer := true }
  if s1.mud_reader = false ∨ s1.mud_writer = false then
    handle_mud_disconnect s1 "Connection refused"
  else
    { session := s1,
      sent := (TYPE_CTRL, json_session s1.session_id) ::
        (attach_replay s1 resume_offset).map (fun c => (TYPE_DATA, c)),
      client_closed := false }

/-- The concatenation of the payloads of the Data frames in a frame list. -/
def data_payloads : List (Nat × List Nat) → List Nat
  | [] => []
  | f :: rest =>
    if f.1 = TYPE_DATA then f.2 ++ data_payloads rest else data_payloads rest

/-- The C2 scenario: totalBytes = 30, two retained chunks of 10 bytes
holding stream bytes `10..29`, so windowStart = 10. -/
def c2_session : Session :=
  { session_id := "s", buffer := [List.range' 110 10, List.range' 120 10],
    ack_offset := 0, total_bytes := 30, client_writer := false,
    mud_reader := true, mud_writer := true }

/-- C2 (code behaviour at the failing input): resuming at offset 5 with
windowStart = 10 computes `skip = -5`, and Python's negative slice
`chunk[-5:]` silently replays the last five bytes of the first retained
chunk followed by the rest — a garbled partial suffix — with no Control
error frame anywhere in the output. -/
theorem c2_garbled_replay :
    window_start c2_session = 10 ∧
    (attach_client c2_session (some 5)).sent =
      [(TYPE_CTRL, json_session "s"),
       (TYPE_DATA, [115, 116, 117, 118, 119]),
       (TYPE_DATA, [120, 121, 122, 123, 124, 125, 126, 127, 128, 129])] := by
  decide

lemma sumLens_cons (c : List Nat) (rest : List (List Nat)) :
    sumLens (c :: rest) = c.length + sumLens rest := by
  simp [sumLens]

/-- With a non-negative skip within the buffer, the replay loop emits exactly
the suffix of the buffered bytes starting at `skip`. -/
lemma replay_loop_join : ∀ (buf : List (List Nat)) (skip : Int),
    0 ≤ skip → skip ≤ (sumLens buf : Int) →
    (replay_loop buf skip).flatten = buf.flatten.drop skip.toNat := by
  intro buf
  induction buf with
  | nil =>
    intro skip h0 hle
    simp [replay_loop]
  | cons c rest ih =>
    intro skip h0 hle
    rw [sumLens_cons] at hle
    push_cast at hle
    by_cases hc : (c.length : Int) ≤ skip
    · have hstep : replay_loop (c :: rest) skip =
          replay_loop rest (skip - (c.length : Int)) := by
        simp [replay_loop, hc]
      rw [hstep, ih (skip - (c.length : Int)) (by omega) (by omega)]
      rw [List.flatten_cons, List.drop_append_eq_append_drop]
      have h1 : c.drop skip.toNat = [] := List.drop_eq_nil_of_le (by omega)
      have h2 : skip.toNat - c.length = (skip - (c.length : Int)).toNat := by omega
      rw [h1, h2, List.nil_append]
    · push_neg at hc
      have hstep : replay_loop (c :: rest) skip =
          pySliceFrom c skip :: replay_loop rest 0 := by
        simp [replay_loop, not_le.mpr hc]
      have hrest : (0 : Int) ≤ (sumLens rest : Int) := by positivity
      rw [hstep, List.flatten_cons, ih 0 le_rfl hrest]
      have hslice : pySliceFrom c skip = c.drop skip.toNat := by
        simp [pySliceFrom, h0]
      rw [hslice, List.flatten_cons, List.drop_append_eq_append_drop]
      have h2 : skip.toNat - c.length = 0 := by omega
      rw [h2]
      simp

lemma data_payloads_map (cs : List (List Nat)) :
    data_payloads (cs.map (fun c => (TYPE_DATA, c))) = cs.flatten := by
  induction cs with
  | nil => rfl
  | cons c cs ih => simp [data_payloads, ih]

/-- `attach_client` with a live upstream connection: the token frame is sent
followed by the replayed chunks as Data frames, and the client stays open. -/
lemma attach_client_ok (s : Session) (ro : Option Int)
    (hr : s.mud_reader = true) (hw : s.mud_writer = true) :
    attach_client s ro =
      { session := { s with client_writer := true },
        sent := (TYPE_CTRL, json_session s.session_id) ::
          (attach_replay { s with client_writer := true } ro).map
            (fun c => (TYPE_DATA, c)),
        client_closed := false } := by
  simp [attach_client, hr, hw]

lemma data_payloads_ctrl_cons (p : List Nat) (rest : List (Nat × List Nat)) :
    data_payloads ((TYPE_CTRL, p) :: rest) = data_payloads rest := by
  simp [data_payloads, TYPE_CTRL, TYPE_DATA]

/-- C7: for a resume attach with `windowStart ≤ offset < totalBytes`, the
session replays as Data frames exactly the bytes `[offset, totalBytes)` of
the upstream stream (splitting the first overlapping chunk at
`offset − windowStart`); for `offset ≥ totalBytes` it replays no Data
bytes. -/
theorem c7_resume_replay (s : Session) (off : Int) (stream : List Nat)
    (hr : s.mud_reader = true) (hw : s.mud_writer = true)
    (hws : 0 ≤ window_start s)
    (hbuf : s.buffer.flatten = stream.drop (window_start s).toNat)
    (hlen : stream.length = s.total_bytes) :
    (window_start s ≤ off → off < (s.total_bytes : Int) →
      data_payloads (attach_client s (some off)).sent = stream.drop off.toNat) ∧
    ((s.total_bytes : Int) ≤ off →
      data_payloads (attach_client s (some off)).sent = []) := by
  have hreplay : attach_replay { s with client_writer := true } (some off) =
      if off < (s.total_bytes : Int) then
        replay_loop s.buffer (off - window_start s)
      else [] := rfl
  constructor
  · intro h1 h2
    rw [attach_client_ok s (some off) hr hw]
    show data_payloads ((TYPE_CTRL, json_session s.session_id) :: _) = _
    rw [data_payloads_ctrl_cons, hreplay, if_pos h2, data_payloads_map]
    have hskip : (replay_loop s.buffer (off - window_start s)).flatten =
        s.buffer.flatten.drop (off - window_start s).toNat := by
      apply replay_loop_join
      · omega
      · have hwdef : window_start s =
            (s.total_bytes : Int) - (sumLens s.buffer : Int) := rfl
        omega
    rw [hskip, hbuf, List.drop_drop]
    congr 1
    omega
  · intro h1
    rw [attach_client_ok s (some off) hr hw]
    show data_payloads ((TYPE_CTRL, json_session s.session_id) :: _) = _
    rw [data_payloads_ctrl_cons, hreplay, if_neg (not_lt.mpr h1)]
    rfl

/-- A concrete session for the C7 witness: totalBytes = 4, retained chunks
`[1, 2]` and `[3, 4]`, windowStart = 0, upstream alive. -/
def demo7 : Session :=
  { session_id := "s", buffer := [[1, 2], [3, 4]], ack_offset := 0,
    total_bytes := 4, client_writer := false,
    mud_reader := true, mud_writer := true }

/-- C7 witness: on `demo7` a resume at offset 1 replays exactly bytes
`[1, 4)` of the stream `[1, 2, 3, 4]`, and a resume at offset 4 replays
nothing. -/
theorem c7_resume_replay_witness :
    data_payloads (attach_client demo7 (some 1)).sent = [2, 3, 4] ∧
    data_payloads (attach_client demo7 (some 4)).sent = [] := by
  constructor
  · have h := (c7_resume_replay demo7 1 [1, 2, 3, 4] rfl rfl (by decide)
      (by decide) (by decide)).1 (by decide) (by decide)
    exact h.trans (by decide)
  · exact (c7_resume_replay demo7 4 [1, 2, 3, 4] rfl rfl (by decide)
      (by decide) (by decide)).2 (by decide)

/-- The global `sessions` dict, as an association list from token to the
session object it holds.  Because the dict entry and the mutated session are
the same Python object, an in-place mutation of a registered session is
modelled by writing the updated session back under its token. -/
abbrev Registry := List (String × Session)

/-- `sessions.get(token)`. -/
def registry_get : Registry → String → Option Session
  | [], _ => none
  | (k, v) :: rest, tok => if k = tok then some v else registry_get rest tok

/-- `sessions[token] = session` (and the write-back of an in-place
mutation of the registered object). -/
def registry_set : Registry → String → Session → Registry
  | [], tok, s => [(tok, s)]
  | (k, v) :: rest, tok, s =>
    if k = tok then (tok, s) :: rest else (k, v) :: registry_set rest tok s

lemma registry_get_set (reg : Registry) (tok : String) (s : Session) :
    registry_get (registry_set reg tok s) tok = some s := by
  induction reg with
  | nil => simp [registry_set, registry_get]
  | cons p rest ih =>
    obtain ⟨k, v⟩ := p
    by_cases h : k = tok
    · simp [registry_set, registry_get, h]
    · simp [registry_set, registry_get, h, ih]

/-- The upstream end-of-stream path of `Session._read_mud` for the session
registered under `tok`: run `_handle_mud_disconnect("Connection lost")` on
it.  Neither `_read_mud` nor the disconnect handler touches the `sessions`
dict, so the (mutated) session stays registered. -/
def read_mud_eof (reg : Registry) (tok : String) :
    Registry × List (Nat × List Nat) × Bool :=
  match registry_get reg tok with
  | none => (reg, [], false)
  | some s =>
    let d := handle_mud_disconnect s "Connection lost"
    (registry_set reg tok d.session, d.sent, d.client_closed)

/-- A registered session with a client attached and a live upstream, used by
the C5 scenario. -/
def demo5 : Session :=
  { session_id := "t", buffer := [], ack_offset := 0, total_bytes := 0,
    client_writer := true, mud_reader := true, mud_writer := true }

/-- C5 counterexample: after the upstream end-of-stream path runs, the
session's token is still present in the registry — it is not removed without
the Idle Reaper, contrary to the claim. -/
theorem c5_counterexample :
    registry_get (read_mud_eof [("t", demo5)] "t").1 "t" ≠ none := by
  decide

/-- C5 amended: on upstream end-of-stream the session sends the attached
client a Control frame with the disconnect reason and closes the client
connection, and closes the upstream writer — but the token is NOT removed
from the registry on this path; only the Idle Reaper removes it later. -/
theorem c5_upstream_lost_amended (reg : Registry) (tok : String) (s : Session)
    (hs : registry_get reg tok = some s)
    (hc : s.client_writer = true) (hw : s.mud_writer = true) :
    (read_mud_eof reg tok).2.1 = [(TYPE_CTRL, json_error "Connection lost")] ∧
    (read_mud_eof reg tok).2.2 = true ∧
    registry_get (read_mud_eof reg tok).1 tok =
      some { s with mud_writer := false } := by
  simp [read_mud_eof, hs, handle_mud_disconnect, hc, hw, registry_get_set]

/-- C5 witness: the amended behaviour at the concrete registry holding
`demo5` under token `"t"`. -/
theorem c5_upstream_lost_witness :
    (read_mud_eof [("t", demo5)] "t").2.1 =
      [(TYPE_CTRL, json_error "Connection lost")] ∧
    (read_mud_eof [("t", demo5)] "t").2.2 = true ∧
    registry_get (read_mud_eof [("t", demo5)] "t").1 "t" =
      some { demo5 with mud_writer := false } :=
  c5_upstream_lost_amended [("t", demo5)] "t" demo5 (by decide) rfl rfl

/-- `Session.connect_to_mud`: on success both upstream endpoints exist; a
`ConnectionRefusedError` is swallowed and leaves them absent. -/
def connect_to_mud (s : Session) (dial_ok : Bool) : Session :=
  if dial_ok then { s with mud_reader := true, mud_writer := true } else s

/-- Result of running `handle_client` on one new connection: the registry
afterwards, the frames written to this client, whether the code closed the
client connection, and the token of the session whose client relay loop was
started (if any). -/
structure HsResult where
  registry : Registry
  sent : List (Nat × List Nat)
  closed : Bool
  attached : Option String
deriving DecidableEq

/-- The `else` branch of `handle_client` (no `"resume"` key in the message):
mint a fresh token, register a new session, dial upstream, attach.  The dict
holds the same object the attach mutates, so the final binding is the
attached session. -/
def route_new (reg : Registry) (fresh_id : String) (dial_ok : Bool) : HsResult :=
  let s1 := connect_to_mud (Session.init fresh_id) dial_ok
  let ar := attach_client s1 none
  { registry := registry_set reg fresh_id ar.session, sent := ar.sent,
    closed := ar.client_closed,
    attached := if ar.client_closed then none else some fresh_id }

/-- C6 counterexample: after a `"new"` handshake whose dial fails, the fresh
token is still registered — the claim that no registry entry exists
afterwards is false. -/
theorem c6_counterexample :
    (registry_get (route_new [] "t" false).registry "t").isSome = true := by
  decide

/-- C6 amended: on dial failure the waiting client receives the Control
error "Connection refused" and its connection is closed, and no relay loop
is started — but the registry entry created for the session persists (until
the Idle Reaper removes it). -/
theorem c6_dial_failure_amended (reg : Registry) (fid : String) :
    (route_new reg fid false).sent =
      [(TYPE_CTRL, json_error "Connection refused")] ∧
    (route_new reg fid false).closed = true ∧
    (route_new reg fid false).attached = none ∧
    registry_get (route_new reg fid false).registry fid =
      some { Session.init fid with client_writer := true } := by
  simp [route_new, connect_to_mud, attach_client, handle_mud_disconnect,
    Session.init, registry_get_set]

/-- The shape of a parsed handshake message that `handle_client` inspects:
whether a `"resume"` key is present (and its token), the optional `"ack"`
value, and whether a `"new"` key is present (which the code never reads). -/
structure JMsg where
  resume : Option String
  ack : Option Int
  hasNew : Bool
deriving DecidableEq

/-- The `"resume"` branch of `handle_client`: look the token up; attach on
success, else send `{"error":"Invalid session"}` and close. -/
def route_resume (reg : Registry) (token : String) (ack : Option Int) :
    HsResult :=
  match registry_get reg token with
  | some s =>
    let ar := attach_client s ack
    { registry := registry_set reg token ar.session, sent := ar.sent,
      closed := ar.client_closed,
      attached := if ar.client_closed then none else some token }
  | none =>
    { registry := reg, sent := [(TYPE_CTRL, invalid_session_bytes)],
      closed := true, attached := none }

/-- The routing of `handle_client` after the first frame's payload is parsed
(`json.loads`, modelled by `loads`): `"resume" in msg` selects the resume
branch, anything else falls to the new-session branch. -/
def handshake_route (loads : List Nat → JMsg) (reg : Registry)
    (payload : List Nat) (fresh_id : String) (dial_ok : Bool) : HsResult :=
  let msg := loads payload
  match msg.resume with
  | some token => route_resume reg token msg.ack
  | none => route_new reg fresh_id dial_ok

/-- `handle_client` up to the attach: one read, decode, inspect only the
first frame; reject unless it is a Control frame; then route on its parsed
payload. -/
def handle_client (loads : List Nat → JMsg) (reg : Registry)
    (data : List Nat) (fresh_id : String) (dial_ok : Bool) : HsResult :=
  match (unpack_frames data).1.head? with
  | none =>
    { registry := reg, sent := [(TYPE_CTRL, missing_control_bytes)],
      closed := true, attached := none }
  | some f =>
    if f.1 = TYPE_CTRL then handshake_route loads reg f.2 fresh_id dial_ok
    else
      { registry := reg, sent := [(TYPE_CTRL, missing_control_bytes)],
        closed := true, attached := none }

/-- The per-frame dispatch of `Session._read_client`: Data payloads are
written to the upstream connection (collected in order), Control payloads go
through `_handle_control` (parsed by `parse`), other kinds are ignored. -/
def process_frames (parse : List Nat → CtrlMsg) (s : Session) :
    List (Nat × List Nat) → Session × List (List Nat)
  | [] => (s, [])
  | f :: rest =>
    if f.1 = TYPE_DATA then
      let r := process_frames parse s rest
      (r.1, f.2 :: r.2)
    else if f.1 = TYPE_CTRL then
      process_frames parse (handle_control s (parse f.2)) rest
    else process_frames parse s rest

/-- `Session._read_client`: starting from a fresh empty byte buffer, extend
it with each read, decode, dispatch the complete frames, and carry the
remainder; at end-of-stream drop the client writer.  Returns the final
session and the bytes forwarded upstream. -/
def read_client_run (parse : List Nat → CtrlMsg) (s : Session)
    (buf : List Nat) : List (List Nat) → Session × List (List Nat)
  | [] => ({ s with client_writer := false }, [])
  | d :: rest =>
    let pr := unpack_frames (buf ++ d)
    let st := process_frames parse s pr.1
    let fin := read_client_run parse st.1 pr.2 rest
    (fin.1, st.2 ++ fin.2)

/-- Everything observable from one client connection handled by
`handle_client`: the handshake result and, when a relay loop was started,
the relay loop run over the later reads — with its decode buffer starting
empty. -/
structure RunResult where
  registry : Registry
  to_client : List (Nat × List Nat)
  client_closed : Bool
  to_mud : List (List Nat)
deriving DecidableEq

/-- One whole client connection: the handshake on the first read, then (if a
session was attached) the client relay loop over the remaining reads. -/
def client_session (loads : List Nat → JMsg) (parse : List Nat → CtrlMsg)
    (reg : Registry) (first_read : List Nat) (fresh_id : String)
    (dial_ok : Bool) (later_reads : List (List Nat)) : RunResult :=
  let h := handle_client loads reg first_read fresh_id dial_ok
  match h.attached with
  | none =>
    { registry := h.registry, to_client := h.sent,
      client_closed := h.closed, to_mud := [] }
  | some tok =>
    match registry_get h.registry tok with
    | none =>
      { registry := h.registry, to_client := h.sent,
        client_closed := h.closed, to_mud := [] }
    | some s =>
      let r := read_client_run parse s [] later_reads
      { registry := registry_set h.registry tok r.1, to_client := h.sent,
        client_closed := h.closed, to_mud := r.2 }

/-- C10: everything observable from the connection — registry, frames to the
client, bytes forwarded upstream by the relay loop — depends only on the
FIRST decoded frame of the initial read: surplus complete frames and
trailing partial bytes of that read are discarded, never forwarded, never
processed, and never carried into the relay loop's decode buffer. -/
theorem c10_first_frame_only (loads : List Nat → JMsg)
    (parse : List Nat → CtrlMsg) (reg : Registry) (fresh_id : String)
    (dial_ok : Bool) (later_reads : List (List Nat)) (d1 d2 : List Nat)
    (h : (unpack_frames d1).1.head? = (unpack_frames d2).1.head?) :
    client_session loads parse reg d1 fresh_id dial_ok later_reads =
      client_session loads parse reg d2 fresh_id dial_ok later_reads := by
  unfold client_session handle_client
  rw [h]

/-- A `json.loads` model mapping any handshake payload to an object with
neither a `"new"` nor a `"resume"` key. -/
def const_loads : List Nat → JMsg :=
  fun _ => { resume := none, ack := none, hasNew := false }

/-- A `json.loads` model for control payloads that always fails to parse. -/
def const_parse : List Nat → CtrlMsg := fun _ => CtrlMsg.malformed

/-- C10 witness: a first read carrying one Control frame plus a trailing
partial byte behaves exactly like a first read carrying the frame alone. -/
theorem c10_first_frame_only_witness :
    (unpack_frames [1, 0, 0, 9]).1.head? = (unpack_frames [1, 0, 0]).1.head? ∧
    client_session const_loads const_parse [] [1, 0, 0, 9] "t" true [] =
      client_session const_loads const_parse [] [1, 0, 0] "t" true [] :=
  ⟨by decide, c10_first_frame_only const_loads const_parse [] "t" true []
    [1, 0, 0, 9] [1, 0, 0] (by decide)⟩

/-- The payload bytes of `{"foo": 1}` — valid JSON containing neither a
`"new"` nor a `"resume"` key; `const_loads` is `json.loads` on it. -/
def c4_payload : List Nat := strBytes "\x7b\"foo\": 1\x7d"

/-- C4 (code behaviour at the failing input): a first frame that is Control
with a JSON payload containing neither `"new"` nor `"resume"` is treated as
a new-session request — the handler registers a session under the fresh
token, replies with the session token frame (no error), and does not close
the connection, contradicting the claim (and the code's own comment). -/
theorem c4_missing_keys_creates_session :
    (registry_get (client_session const_loads const_parse []
        (pack_frame TYPE_CTRL c4_payload) "t" true []).registry "t").isSome
      = true ∧
    (client_session const_loads const_parse []
        (pack_frame TYPE_CTRL c4_payload) "t" true []).to_client =
      [(TYPE_CTRL, json_session "t")] ∧
    (client_session const_loads const_parse []
        (pack_frame TYPE_CTRL c4_payload) "t" true []).client_closed
      = false := by
  decide
